import Mathlib

/-!
Verification of the gotranslate translation pipeline.

This development gives a shallow embedding, in Lean 4, of the Go sources of
the gotranslate repository:

* `html.go` (isHTML, getTextFromHTML, reconstructHTML,
  replaceNonUTF8Characters), and
* `main.go` (the Lambda handler, the cache-aware translation orchestration,
  reconstructPlainText, getHashFromText, splitSentences, validateRequest,
  getSupportedLanguages, doesTargetLanguageExist, shouldCacheBeUsed).

Go strings are embedded as Lean `String` (a list of characters; UTF-8 byte
level behaviour is made explicit where it matters, namely in the SHA-256
fingerprint).  Go slice indexing, which panics when out of range, is embedded
via `Option`: a `none` result models a runtime panic.  Fallible Go functions
returning `(T, error)` are embedded as `Except String T`.  External
collaborators (the AWS Translate provider, the DynamoDB cache, the
`sentencizer` segmenter and the `x/net/html` streaming tokenizer) are
parameters of the embedding, collected in an `Env` structure; calls to these
collaborators are recorded in an event trace so that "no provider call is
made" style properties can be stated.  Concrete models of the segmenter and
of the markup tokenizer, faithful to the specification's description and to
the repository's own tests, are supplied for concrete scenarios.
-/

namespace Gotranslate

/- ### Character and string helpers (Go `strings` package behaviour) -/

/-- Whitespace predicate used by Go's `strings.TrimSpace` (restricted to the
ASCII whitespace characters, which coincide with Unicode white space on every
input this development considers): space, tab, newline, vertical tab, form
feed, carriage return. -/
def isSpaceChar (c : Char) : Bool :=
  c = ' ' || c = '\t' || c = '\n' || c = '\r' || c = Char.ofNat 11 || c = Char.ofNat 12

/-- Drop leading whitespace characters from a character list. -/
def dropWhileSpace : List Char → List Char
  | [] => []
  | c :: rest => if isSpaceChar c then dropWhileSpace rest else c :: rest

/-- Trim trailing whitespace of a character list. -/
def trimRightChars (l : List Char) : List Char :=
  (dropWhileSpace l.reverse).reverse

/-- Embedding of Go `strings.TrimSpace`: remove leading and trailing
whitespace. -/
def trimSpace (s : String) : String :=
  String.mk (dropWhileSpace (trimRightChars s.data))

/-- `strStartsWith l pat` holds when `pat` is a prefix of `l`
(Go `strings.HasPrefix` on the underlying runes). -/
def strStartsWith : List Char → List Char → Bool
  | _, [] => true
  | [], _ :: _ => false
  | c :: cs, p :: ps => c = p && strStartsWith cs ps

/-- `strContains l pat` holds when `pat` occurs contiguously inside `l`. -/
def strContains : List Char → List Char → Bool
  | [], pat => strStartsWith [] pat
  | c :: rest, pat => strStartsWith (c :: rest) pat || strContains rest pat

/-- Embedding of Go `strings.Contains` (substring occurrence; on the ASCII
patterns used by `isHTML`, rune-level and byte-level occurrence coincide). -/
def containsSubstr (s pat : String) : Bool :=
  strContains s.data pat.data

/- ### SHA-256 (Go `crypto/sha256`, used by `getHashFromText`)

The digest is computed over the UTF-8 bytes of the input string, exactly as
Go's `sha256.Sum256([]byte(text))` does.  Bytes and 32-bit words are plain
`Nat` with explicit reduction modulo `2 ^ 32`. -/

/-- UTF-8 encoding of a single code point (Lean `Char`s are always scalar
values, so the surrogate case cannot arise). -/
def utf8EncodeCharNat (c : Nat) : List Nat :=
  if c < 128 then [c]
  else if c < 2048 then
    [192 ||| (c >>> 6), 128 ||| (c &&& 63)]
  else if c < 65536 then
    [224 ||| (c >>> 12), 128 ||| ((c >>> 6) &&& 63), 128 ||| (c &&& 63)]
  else
    [240 ||| (c >>> 18), 128 ||| ((c >>> 12) &&& 63),
      128 ||| ((c >>> 6) &&& 63), 128 ||| (c &&& 63)]

/-- The UTF-8 bytes of a string (the Go `[]byte(text)` conversion). -/
def stringUTF8Bytes (s : String) : List Nat :=
  s.data.flatMap (fun c => utf8EncodeCharNat c.toNat)

/-- The SHA-256 round constants, written in decimal. -/
def sha256K : List Nat :=
  [1116352408, 1899447441, 3049323471, 3921009573, 961987163,
   1508970993, 2453635748, 2870763221, 3624381080, 310598401,
   607225278, 1426881987, 1925078388, 2162078206, 2614888103,
   3248222580, 3835390401, 4022224774, 264347078, 604807628,
   770255983, 1249150122, 1555081692, 1996064986, 2554220882,
   2821834349, 2952996808, 3210313671, 3336571891, 3584528711,
   113926993, 338241895, 666307205, 773529912, 1294757372,
   1396182291, 1695183700, 1986661051, 2177026350, 2456956037,
   2730485921, 2820302411, 3259730800, 3345764771, 3516065817,
   3600352804, 4094571909, 275423344, 430227734, 506948616,
   659060556, 883997877, 958139571, 1322822218, 1537002063,
   1747873779, 1955562222, 2024104815, 2227730452, 2361852424,
   2428436474, 2756734187, 3204031479, 3329325298]

/-- 32-bit right rotation on a `Nat` below `2 ^ 32`. -/
def rotr32 (n w : Nat) : Nat :=
  ((w >>> n) ||| (w <<< (32 - n))) % 4294967296

/-- SHA-256 `Ch(x, y, z)`. -/
def sha256Ch (x y z : Nat) : Nat :=
  (x &&& y) ^^^ ((4294967295 ^^^ x) &&& z)

/-- SHA-256 `Maj(x, y, z)`. -/
def sha256Maj (x y z : Nat) : Nat :=
  (x &&& y) ^^^ (x &&& z) ^^^ (y &&& z)

/-- SHA-256 `Σ₀`. -/
def sha256BigS0 (x : Nat) : Nat := rotr32 2 x ^^^ rotr32 13 x ^^^ rotr32 22 x

/-- SHA-256 `Σ₁`. -/
def sha256BigS1 (x : Nat) : Nat := rotr32 6 x ^^^ rotr32 11 x ^^^ rotr32 25 x

/-- SHA-256 `σ₀`. -/
def sha256SmallS0 (x : Nat) : Nat := rotr32 7 x ^^^ rotr32 18 x ^^^ (x >>> 3)

/-- SHA-256 `σ₁`. -/
def sha256SmallS1 (x : Nat) : Nat := rotr32 17 x ^^^ rotr32 19 x ^^^ (x >>> 10)

/-- Big-endian bytes of the 64-bit message length. -/
def lenBytes64 (n : Nat) : List Nat :=
  [(n >>> 56) % 256, (n >>> 48) % 256, (n >>> 40) % 256, (n >>> 32) % 256,
   (n >>> 24) % 256, (n >>> 16) % 256, (n >>> 8) % 256, n % 256]

/-- SHA-256 padding: append `0x80`, zero bytes up to 56 mod 64, then the
bit length as a 64-bit big-endian integer. -/
def sha256Pad (msg : List Nat) : List Nat :=
  msg ++ [128] ++ List.replicate ((119 - msg.length % 64) % 64) 0 ++
    lenBytes64 (8 * msg.length)

/-- Group bytes into big-endian 32-bit words (input length is a multiple
of four after padding). -/
def bytesToWords : List Nat → List Nat
  | b0 :: b1 :: b2 :: b3 :: rest =>
      (b0 * 16777216 + b1 * 65536 + b2 * 256 + b3) :: bytesToWords rest
  | _ => []

/-- Split a word list into 16-word blocks; the fuel argument only
bounds the recursion and is chosen large enough never to run out. -/
def chunkWords : Nat → List Nat → List (List Nat)
  | 0, _ => []
  | _ + 1, [] => []
  | fuel + 1, l => l.take 16 :: chunkWords fuel (l.drop 16)

/-- Extend the (reversed, newest-first) message schedule by `n` words. -/
def scheduleRev : Nat → List Nat → List Nat
  | 0, acc => acc
  | n + 1, acc =>
      let w := (sha256SmallS1 (acc.getD 1 0) + acc.getD 6 0 +
        sha256SmallS0 (acc.getD 14 0) + acc.getD 15 0) % 4294967296
      scheduleRev n (w :: acc)

/-- The 64-word message schedule of one block. -/
def sha256Schedule (block : List Nat) : List Nat :=
  (scheduleRev 48 block.reverse).reverse

/-- The eight 32-bit working variables of the SHA-256 compression. -/
structure Hash8 where
  a : Nat
  b : Nat
  c : Nat
  d : Nat
  e : Nat
  f : Nat
  g : Nat
  h : Nat

/-- The SHA-256 initial hash value, written in decimal. -/
def sha256Init : Hash8 :=
  ⟨1779033703, 3144134277, 1013904242, 2773480762,
   1359893119, 2600822924, 528734635, 1541459225⟩

/-- One SHA-256 round with schedule word `w` and constant `k`. -/
def sha256Round (st : Hash8) (wk : Nat × Nat) : Hash8 :=
  let t1 := (st.h + sha256BigS1 st.e + sha256Ch st.e st.f st.g +
    wk.2 + wk.1) % 4294967296
  let t2 := (sha256BigS0 st.a + sha256Maj st.a st.b st.c) % 4294967296
  ⟨(t1 + t2) % 4294967296, st.a, st.b, st.c,
    (st.d + t1) % 4294967296, st.e, st.f, st.g⟩

/-- Compress one 16-word block into the running hash. -/
def sha256Compress (st : Hash8) (block : List Nat) : Hash8 :=
  let s := ((sha256Schedule block).zip sha256K).foldl sha256Round st
  ⟨(st.a + s.a) % 4294967296, (st.b + s.b) % 4294967296,
   (st.c + s.c) % 4294967296, (st.d + s.d) % 4294967296,
   (st.e + s.e) % 4294967296, (st.f + s.f) % 4294967296,
   (st.g + s.g) % 4294967296, (st.h + s.h) % 4294967296⟩

/-- Big-endian bytes of one 32-bit word. -/
def wordBytesBE (w : Nat) : List Nat :=
  [(w >>> 24) % 256, (w >>> 16) % 256, (w >>> 8) % 256, w % 256]

/-- SHA-256 of a byte sequence, as its 32 digest bytes. -/
def sha256Bytes (msg : List Nat) : List Nat :=
  let words := bytesToWords (sha256Pad msg)
  let hfin := (chunkWords (words.length + 1) words).foldl sha256Compress sha256Init
  wordBytesBE hfin.a ++ wordBytesBE hfin.b ++ wordBytesBE hfin.c ++
    wordBytesBE hfin.d ++ wordBytesBE hfin.e ++ wordBytesBE hfin.f ++
    wordBytesBE hfin.g ++ wordBytesBE hfin.h

/-- Lowercase hexadecimal digit. -/
def hexDigitChar (n : Nat) : Char :=
  if n < 10 then Char.ofNat (48 + n) else Char.ofNat (87 + n)

/-- Lowercase hexadecimal encoding of a byte list
(Go `hex.EncodeToString`). -/
def hexOfBytes : List Nat → List Char
  | [] => []
  | b :: bs => hexDigitChar (b / 16) :: hexDigitChar (b % 16) :: hexOfBytes bs

/-- Embedding of `getHashFromText` from main.go: the lowercase hex SHA-256
digest of the UTF-8 bytes of the input. -/
def getHashFromText (text : String) : String :=
  String.mk (hexOfBytes (sha256Bytes (stringUTF8Bytes text)))

/- ### `isHTML` (html.go lines 10-15) -/

/-- Embedding of `isHTML` from html.go: case-sensitive test for one of the
four structural opening-tag substrings. -/
def isHTML (text : String) : Bool :=
  containsSubstr text "<html" || containsSubstr text "<p" ||
    containsSubstr text "<div" || containsSubstr text "<span"

/- ### Markup tokens (the `x/net/html` token data model) -/

/-- The kinds of token produced by the streaming markup tokenizer (the error
kind never reaches the token list: `getTextFromHTML` returns before appending
it). -/
inductive TokenType where
  | errorTok
  | textTok
  | startTagTok
  | endTagTok
  | selfClosingTagTok
  | commentTok
  | doctypeTok
deriving DecidableEq, Repr

/-- One attribute of a tag token. -/
structure Attribute where
  key : String
  val : String
deriving DecidableEq, Repr

/-- One parsed markup token: kind, textual payload (tag name for tags, text
for text tokens), and attributes. -/
structure Token where
  type : TokenType
  data : String
  attr : List Attribute := []
deriving DecidableEq, Repr

/-- Escape of text payloads used by the tokenizer's string form
(Go `html.EscapeString`, covering its five escaped characters). -/
def escapeChars : List Char → List Char
  | [] => []
  | c :: rest =>
      (if c = '&' then "&amp;".data
       else if c = '\'' then "&#39;".data
       else if c = '<' then "&lt;".data
       else if c = '>' then "&gt;".data
       else if c = '"' then "&#34;".data
       else [c]) ++ escapeChars rest

/-- `html.EscapeString` on a string. -/
def escapeString (s : String) : String := String.mk (escapeChars s.data)

/-- The rendered attribute part of a tag, ` key="value"` for each attribute. -/
def attrString (attrs : List Attribute) : String :=
  attrs.foldl (fun acc a => acc ++ " " ++ a.key ++ "=\"" ++ escapeString a.val ++ "\"") ""

/-- The string form of a token (Go `html.Token.String`), used by
`reconstructHTML` for every non-text token. -/
def tokenString (t : Token) : String :=
  match t.type with
  | .errorTok => ""
  | .textTok => escapeString t.data
  | .startTagTok => "<" ++ t.data ++ attrString t.attr ++ ">"
  | .endTagTok => "</" ++ t.data ++ ">"
  | .selfClosingTagTok => "<" ++ t.data ++ attrString t.attr ++ "/>"
  | .commentTok => "<!--" ++ t.data ++ "-->"
  | .doctypeTok => "<!DOCTYPE " ++ t.data ++ ">"

/-- Text-token test (the `case html.TextToken` branch discriminant). -/
def isTextToken (t : Token) : Bool :=
  match t.type with
  | .textTok => true
  | _ => false

/- ### External collaborators -/

/-- A cached translation item (main.go `CacheItem`). -/
structure CacheItem where
  Hash : String
  TranslatedText : String
  SourceText : String
  SourceLanguage : String
  TargetLanguage : String
deriving DecidableEq, Repr

/-- Modelled from the spec: the external collaborators of the core
(spec §6) — the provider's list-languages and translate-one-string
operations, the cache store's get/put, the `sentencizer` segmenter (a
function of a language code and a text), and the `x/net/html` streaming
tokenizer (the stream of non-error tokens it yields for an input, or a
malformed-document error).  `listLanguages` yielding `some` of a list models
a non-nil Go slice; `none` models a nil slice. -/
structure Env where
  listLanguages : Except String (Option (List String))
  cacheGet : String → Except String (Option CacheItem)
  translateText : String → String → String → Except String String
  cachePut : CacheItem → Except String Unit
  seg : String → String → List String
  tokenizeHTML : String → Except String (List Token)

/-- One observable call to an external collaborator, recorded in order. -/
inductive Event where
  | listLangs
  | tokenize (input : String)
  | cacheGet (hash : String)
  | translate (text : String)
  | cachePut (hash : String)
deriving DecidableEq, Repr

/- ### Sentence segmentation (main.go lines 380-383) -/

/-- Embedding of `splitSentences`: the segmenter is always constructed for
the hardcoded `"en"` language, whatever the request's languages are. -/
def splitSentences (env : Env) (input : String) : List String :=
  env.seg "en" input

/-- Modelled from the spec: the behaviour of the external `sentencizer`
English segmenter, missing from the sources, following spec §4.2 and the
sentence boundaries documented by the repository's `TestSplitSentences`
table: a sentence ends at `.`, `!` or `?` followed by whitespace or
end-of-input; each sentence is trimmed; empty results are dropped.  The
first argument (`acc`) holds the current sentence's characters in reverse. -/
def segmentChars (acc : List Char) : List Char → List (List Char)
  | [] =>
      let s := dropWhileSpace (trimRightChars acc.reverse)
      if s.isEmpty then [] else [s]
  | c :: rest =>
      let boundary :=
        (c = '.' || c = '!' || c = '?') &&
          (match rest with
           | [] => true
           | c2 :: _ => isSpaceChar c2)
      if boundary then
        let s := dropWhileSpace (trimRightChars (c :: acc).reverse)
        if s.isEmpty then segmentChars [] rest else s :: segmentChars [] rest
      else
        segmentChars (c :: acc) rest

/-- Modelled from the spec: the English `sentencizer` segmenter on a string
(the language argument selects the model; only the English behaviour is
modelled since `splitSentences` always passes `"en"`). -/
def sentencizerSegment (_lang : String) (text : String) : List String :=
  (segmentChars [] text.data).map String.mk

/- ### `getTextFromHTML` (html.go lines 17-43) -/

/-- Embedding of `replaceNonUTF8Characters` (html.go): Go's
`strings.ToValidUTF8(text, "")`.  Lean strings are valid Unicode by
construction, so on the representable domain the replacement is the
identity. -/
def replaceNonUTF8Characters (text : String) : String := text

/-- The per-token accumulation loop of `getTextFromHTML`: every token is kept
in the token list; for a text token whose trimmed text is non-empty, the
segmenter's sentences are appended to the flat list and their number to the
counts list. -/
def extractTexts (seg : String → String → List String) :
    List Token → List Token × List String × List Nat
  | [] => ([], [], [])
  | t :: rest =>
      let (tokens, texts, counts) := extractTexts seg rest
      match t.type with
      | .textTok =>
          let text := trimSpace t.data
          if text = "" then (t :: tokens, texts, counts)
          else
            let sentences := seg "en" text
            (t :: tokens, sentences ++ texts, sentences.length :: counts)
      | _ => (t :: tokens, texts, counts)

/-- Embedding of `getTextFromHTML` (html.go lines 17-43): normalize the
input, run the streaming tokenizer, and accumulate tokens, sentences and
per-node sentence counts; a tokenizer error propagates with no partial
result. -/
def getTextFromHTML (env : Env) (input : String) :
    Except String (List Token × List String × List Nat) × List Event :=
  match env.tokenizeHTML (replaceNonUTF8Characters input) with
  | .error e => (.error e, [.tokenize (replaceNonUTF8Characters input)])
  | .ok stream =>
      (.ok (extractTexts env.seg stream), [.tokenize (replaceNonUTF8Characters input)])

/- ### `reconstructHTML` (html.go lines 45-67) -/

/-- The inner `for range count` loop of `reconstructHTML`: emit up to `count`
translated sentences starting at cursor `ti`, stopping silently when the
cursor reaches the end of the translated list; returns the emitted text and
the new cursor. -/
def emitSentences (ts : List String) : Nat → Nat → String × Nat
  | 0, ti => ("", ti)
  | count + 1, ti =>
      if h : ti < ts.length then
        let (s, ti') := emitSentences ts count (ti + 1)
        (ts.get ⟨ti, h⟩ ++ s, ti')
      else ("", ti)

/-- The token walk of `reconstructHTML` with explicit text cursor `ti` and
counts cursor `si`.  Reading `sentenceCounts[sentenceIndex]` in Go panics
when the cursor is out of range; that read is embedded as a dependent bounds
check whose failure yields `none`. -/
def reconstructGo (ts : List String) (counts : List Nat) :
    List Token → Nat → Nat → Option String
  | [], _, _ => some ""
  | t :: rest, ti, si =>
      match t.type with
      | .textTok =>
          if h : si < counts.length then
            let (chunk, ti') := emitSentences ts (counts.get ⟨si, h⟩) ti
            (reconstructGo ts counts rest ti' (si + 1)).map (fun r => chunk ++ r)
          else none
      | _ => (reconstructGo ts counts rest ti si).map (fun r => tokenString t ++ r)

/-- Embedding of `reconstructHTML` (html.go lines 45-67); `none` models the
index-out-of-range panic on the counts list. -/
def reconstructHTML (tokens : List Token) (translatedSentences : List String)
    (sentenceCounts : List Nat) : Option String :=
  reconstructGo translatedSentences sentenceCounts tokens 0 0

/- ### A concrete model of the streaming markup tokenizer -/

/-- Split a character list at the first occurrence of `delim`, consuming it;
`none` when the delimiter does not occur. -/
def splitAtChar (delim : Char) : List Char → Option (List Char × List Char)
  | [] => none
  | c :: rest =>
      if c = delim then some ([], rest)
      else (splitAtChar delim rest).map (fun p => (c :: p.1, p.2))

/-- Take the text run up to the next `<` (not consumed). -/
def takeTextRun : List Char → List Char × List Char
  | [] => ([], [])
  | c :: rest =>
      if c = '<' then ([], c :: rest)
      else
        let (txt, after) := takeTextRun rest
        (c :: txt, after)

/-- Modelled from the spec: the token stream of the external `x/net/html`
streaming tokenizer (spec §4.3 and the specification's scenario), on the
structural subset the scenario exercises — start tags, end tags and text
runs, without attributes, comments, doctypes or entity references.  The fuel
argument only bounds the recursion. -/
def tokenizeChars : Nat → List Char → Except String (List Token)
  | 0, _ => .error "tokenizer fuel exhausted"
  | _ + 1, [] => .ok []
  | fuel + 1, '<' :: '/' :: rest =>
      match splitAtChar '>' rest with
      | none => .error "malformed markup"
      | some (name, after) =>
          (tokenizeChars fuel after).map
            (fun toks => { type := .endTagTok, data := String.mk name } :: toks)
  | fuel + 1, '<' :: rest =>
      match splitAtChar '>' rest with
      | none => .error "malformed markup"
      | some (name, after) =>
          (tokenizeChars fuel after).map
            (fun toks => { type := .startTagTok, data := String.mk name } :: toks)
  | fuel + 1, l =>
      let (txt, after) := takeTextRun l
      (tokenizeChars fuel after).map
        (fun toks => { type := .textTok, data := String.mk txt } :: toks)

/-- Modelled from the spec: the tokenizer model on a string. -/
def tokenizeHTMLModel (s : String) : Except String (List Token) :=
  tokenizeChars (s.data.length + 1) s.data

/- ### `reconstructPlainText` (main.go lines 256-263) -/

/-- Embedding of `reconstructPlainText`: write each sentence followed by a
single space into a builder, then `strings.TrimSpace` the result. -/
def reconstructPlainText (translatedSentences : List String) : String :=
  trimSpace (translatedSentences.foldl (fun sb sentence => sb ++ sentence ++ " ") "")

/- ### Cache key (main.go lines 201 and 266) -/

/-- The `fmt.Sprintf("%s-%s-%s", sourceLanguage, targetLanguage, text)` key
string hashed at both call sites of `getHashFromText`. -/
def hashKey (sourceLanguage targetLanguage text : String) : String :=
  sourceLanguage ++ "-" ++ targetLanguage ++ "-" ++ text

/-- The cache fingerprint of a (source language, target language, sentence)
triple: `getHashFromText` of the dash-joined key. -/
def fingerprintTriple (sourceLanguage targetLanguage text : String) : String :=
  getHashFromText (hashKey sourceLanguage targetLanguage text)

/- ### Cache lookup and the per-unit translation task
     (main.go lines 174-233, 265-301, 303-346) -/

/-- Embedding of `shouldCacheBeUsed` (main.go lines 265-301): hash the triple,
look it up in the cache; a lookup error propagates, an absent item is a miss
(zero-value item, `false`), a present item is a hit. -/
def shouldCacheBeUsed (env : Env) (sourceLanguage targetLanguage text : String) :
    Except String (CacheItem × Bool) × List Event :=
  let hash := getHashFromText (hashKey sourceLanguage targetLanguage text)
  match env.cacheGet hash with
  | .error e => (.error e, [.cacheGet hash])
  | .ok none => (.ok (⟨"", "", "", "", ""⟩, false), [.cacheGet hash])
  | .ok (some item) => (.ok (item, true), [.cacheGet hash])

/-- Embedding of the body of one `errGroup.Go` task (main.go lines 183-215):
check the cache; on a hit return the cached text; on a miss call the
provider, store the result in the cache, and return it; each failure is
wrapped with the unit's index and aborts the task. -/
def translateUnit (env : Env) (sourceLanguage targetLanguage : String)
    (index : Nat) (token : String) : Except String String × List Event :=
  let (cres, ev) := shouldCacheBeUsed env sourceLanguage targetLanguage token
  match cres with
  | .error e => (.error s!"error checking cache for token {index}: {e}", ev)
  | .ok (cacheItem, useCache) =>
      if useCache then (.ok cacheItem.TranslatedText, ev)
      else
        match env.translateText token sourceLanguage targetLanguage with
        | .error e =>
            (.error s!"error translating token {index}: {e}", ev ++ [.translate token])
        | .ok translatedText =>
            let item : CacheItem :=
              ⟨getHashFromText (hashKey sourceLanguage targetLanguage token),
                translatedText, token, sourceLanguage, targetLanguage⟩
            match env.cachePut item with
            | .error e =>
                (.error s!"error caching translation for token {index}: {e}",
                  ev ++ [.translate token, .cachePut item.Hash])
            | .ok _ =>
                (.ok translatedText, ev ++ [.translate token, .cachePut item.Hash])

/-- The orchestration loop over the sentence units starting at `index`: each
unit's result goes to its own position; the first failing unit's error aborts
the batch with no partial output. -/
def orchestrateGo (env : Env) (sourceLanguage targetLanguage : String) :
    Nat → List String → Except String (List String) × List Event
  | _, [] => (.ok [], [])
  | index, token :: rest =>
      let (res, ev) := translateUnit env sourceLanguage targetLanguage index token
      match res with
      | .error e => (.error e, ev)
      | .ok translated =>
          let (rres, rev) := orchestrateGo env sourceLanguage targetLanguage (index + 1) rest
          (rres.map (fun l => translated :: l), ev ++ rev)

/-- Embedding of the orchestration of main.go lines 174-233 (the bounded
errgroup made sequential: task results depend only on each unit's index and
text, so the final value is completion-order independent, as spec §5
states). -/
def orchestrate (env : Env) (sourceLanguage targetLanguage : String)
    (sentences : List String) : Except String (List String) × List Event :=
  orchestrateGo env sourceLanguage targetLanguage 0 sentences

/- ### Language support check (main.go lines 348-373) -/

/-- Embedding of `getSupportedLanguages`: list the provider's languages; an
error propagates, a nil slice is the distinct "no languages returned by AWS
Translate" error. -/
def getSupportedLanguages (env : Env) : Except String (List String) × List Event :=
  match env.listLanguages with
  | .error e => (.error e, [.listLangs])
  | .ok none => (.error "no languages returned by AWS Translate", [.listLangs])
  | .ok (some langs) => (.ok langs, [.listLangs])

/-- Embedding of `doesTargetLanguageExist` (main.go lines 348-355). -/
def doesTargetLanguageExist (env : Env) (targetLanguage : String) :
    Except String Bool × List Event :=
  let (res, ev) := getSupportedLanguages env
  match res with
  | .error e => (.error e, ev)
  | .ok langs => (.ok (langs.contains targetLanguage), ev)

/- ### Request validation and the handler (main.go lines 120-254, 406-417) -/

/-- The decoded request body (main.go `TranslateRequest`). -/
structure TranslateRequest where
  SourceLanguage : String
  TargetLanguage : String
  Text : String
deriving DecidableEq, Repr

/-- Embedding of `validateRequest` (main.go lines 406-417): `some msg` is the
error, `none` is success. -/
def validateRequest (request : TranslateRequest) : Option String :=
  if request.SourceLanguage = "" then some "source_language is required"
  else if request.TargetLanguage = "" then some "target_language is required"
  else if request.Text = "" then some "text is required"
  else none

/-- The API Gateway proxy response as the handler fills it. -/
structure APIResponse where
  statusCode : Nat
  body : String
deriving DecidableEq, Repr

/-- Modelled from the spec: the response envelope of spec §6,
`\x7b"translated_text":...\x7d` with empty optional fields omitted (the
external JSON encoder's escaping is not modelled; no claim inspects a success
body's escaping). -/
def marshalResponseModel (translatedText : String) : String :=
  "\x7b\"translated_text\":\"" ++ translatedText ++ "\"\x7d"

/-- Embedding of `handler.handle` (main.go lines 120-254), from the decoded
request (JSON decoding of the transport envelope is the entry-point
collaborator's concern): validation, the supported-language check, content
classification, tokenization or segmentation, orchestration, and
reassembly.  The result pairs the response (`none` models a Go panic during
reconstruction) with the ordered trace of external calls. -/
def handleReq (env : Env) (request : TranslateRequest) :
    Option APIResponse × List Event :=
  match validateRequest request with
  | some msg => (some ⟨400, msg⟩, [])
  | none =>
    let (sup, tr1) := doesTargetLanguageExist env request.TargetLanguage
    match sup with
    | .error _ => (some ⟨500, "Error checking supported languages"⟩, tr1)
    | .ok false => (some ⟨422, "Target language not supported"⟩, tr1)
    | .ok true =>
      if isHTML request.Text then
        let (res, tr2) := getTextFromHTML env request.Text
        match res with
        | .error _ => (some ⟨500, "Error processing HTML content"⟩, tr1 ++ tr2)
        | .ok (htmlTokens, sentences, wordCounts) =>
          let (ores, tr3) :=
            orchestrate env request.SourceLanguage request.TargetLanguage sentences
          match ores with
          | .error _ => (some ⟨500, "Error during translation"⟩, tr1 ++ tr2 ++ tr3)
          | .ok translatedSentences =>
            match reconstructHTML htmlTokens translatedSentences wordCounts with
            | none => (none, tr1 ++ tr2 ++ tr3)
            | some out => (some ⟨200, marshalResponseModel out⟩, tr1 ++ tr2 ++ tr3)
      else
        let sentences := splitSentences env request.Text
        let (ores, tr3) :=
          orchestrate env request.SourceLanguage request.TargetLanguage sentences
        match ores with
        | .error _ => (some ⟨500, "Error during translation"⟩, tr1 ++ tr3)
        | .ok translatedSentences =>
            (some ⟨200, marshalResponseModel (reconstructPlainText translatedSentences)⟩,
              tr1 ++ tr3)

/-- The segmentation stage of `handle` (main.go lines 158-172) as a function
of the whole request: classify the text, then either tokenize the markup (the
flat sentence list is the middle component) or split the plain text. -/
def pipelineSentences (env : Env) (request : TranslateRequest) :
    Except String (List String) :=
  if isHTML request.Text then
    ((getTextFromHTML env request.Text).1).map (fun r => r.2.1)
  else .ok (splitSentences env request.Text)

/- ### Concrete environments used by scenario theorems and witnesses -/

/-- A concrete environment: both scenario languages supported, cache always
misses, the provider answers `"T"`, the segmenter and tokenizer are the
spec-modelled concrete ones. -/
def scenarioEnv : Env :=
  { listLanguages := .ok (some ["en", "es"])
    cacheGet := fun _ => .ok none
    translateText := fun _ _ _ => .ok "T"
    cachePut := fun _ => .ok ()
    seg := sentencizerSegment
    tokenizeHTML := tokenizeHTMLModel }

/-- A concrete environment whose cache always hits. -/
def cacheHitEnv : Env :=
  { scenarioEnv with
    cacheGet := fun _ => .ok (some ⟨"test-hash", "Hola", "Hello", "en", "es"⟩) }

/-- A concrete environment whose cache lookup always fails. -/
def cacheErrEnv : Env :=
  { scenarioEnv with cacheGet := fun _ => .error "mock error" }

/- ### Further definitions used by the statements of the claims -/

instance instDecEqExcept {ε α : Type} [DecidableEq ε] [DecidableEq α] :
    DecidableEq (Except ε α) := fun a b =>
  match a, b with
  | .error e, .error f =>
      if h : e = f then isTrue (h ▸ rfl)
      else isFalse (fun hh => by cases hh; exact h rfl)
  | .error _, .ok _ => isFalse (fun hh => Except.noConfusion hh)
  | .ok _, .error _ => isFalse (fun hh => Except.noConfusion hh)
  | .ok x, .ok y =>
      if h : x = y then isTrue (h ▸ rfl)
      else isFalse (fun hh => by cases hh; exact h rfl)

/-- The number of text tokens in a token list (every one of which makes
`reconstructHTML` read a counts-list entry). -/
def countTextTokens (tokens : List Token) : Nat :=
  (tokens.filter isTextToken).length

/-- The sentences joined with a single space separator and no trailing one —
the specification's description of plain-text reassembly. -/
def intercalateSpace : List String → String
  | [] => ""
  | [s] => s
  | s :: rest => s ++ " " ++ intercalateSpace rest

/-- The trailing-separator form of the join that the builder loop of
`reconstructPlainText` produces before trimming. -/
def joinTrailing : List String → String
  | [] => ""
  | s :: rest => s ++ " " ++ joinTrailing rest

/-- The token stream of the specification's scenario input. -/
def scenarioTokens : List Token :=
  [⟨.startTagTok, "p", []⟩, ⟨.textTok, "Hello world. How are you?", []⟩,
   ⟨.endTagTok, "p", []⟩]

/- ### Supporting lemmas -/

/-- The empty-string digest recorded in the repository's own test suite. -/
theorem getHashFromText_empty_vector :
    getHashFromText "" =
      "e3b0c44298fc1c149afbf4c8996fb92427ae41e4649b934ca495991b7852b855" := by
  decide

/-- The `"Hello, world!"` digest recorded in the repository's own test
suite. -/
theorem getHashFromText_hello_vector :
    getHashFromText "Hello, world!" =
      "315f5bdb76d078c43b8ac0064e4a0164612b1fce77c869345bfc94c75894edd3" := by
  decide

/-- The punctuation-only digest recorded in the repository's own test
suite. -/
theorem getHashFromText_special_vector :
    getHashFromText "!@#$%^&*()" =
      "95ce789c5c9d18490972709838ca3a9719094bca3ac16332cfec0652b0236141" := by
  decide

/-- The 43-byte-input digest recorded in the repository's own test suite. -/
theorem getHashFromText_long_vector :
    getHashFromText "The quick brown fox jumps over the lazy dog" =
      "d7a8fbb307d7809469ca9abcb0082e4f8d5651e46d3cdb762d02d0bf37c9e592" := by
  decide

/-- `strStartsWith` decides the prefix relation. -/
theorem strStartsWith_iff (l pat : List Char) :
    strStartsWith l pat = true ↔ pat <+: l := by
  induction l generalizing pat with
  | nil =>
      cases pat with
      | nil => simp [strStartsWith]
      | cons p ps => simp [strStartsWith]
  | cons c cs ih =>
      cases pat with
      | nil => simp [strStartsWith]
      | cons p ps =>
          simp only [strStartsWith, Bool.and_eq_true, decide_eq_true_eq, ih,
            List.cons_prefix_cons]
          constructor
          · rintro ⟨h1, h2⟩; exact ⟨h1.symm, h2⟩
          · rintro ⟨h1, h2⟩; exact ⟨h1.symm, h2⟩

/-- `strContains` decides the contiguous-substring relation. -/
theorem strContains_iff (l pat : List Char) :
    strContains l pat = true ↔ pat <:+: l := by
  induction l with
  | nil =>
      simp [strContains, strStartsWith_iff]
  | cons c cs ih =>
      simp only [strContains, Bool.or_eq_true, strStartsWith_iff, ih,
        List.infix_cons_iff]

/- ### Claim C10 -/

/-- Claim C10: the content classifier is the exact case-sensitive substring
test for the four markers `<html`, `<p`, `<div`, `<span`; markup written with
uppercase tags, such as `<DIV>Hello</DIV>`, is classified as plain text. -/
theorem isHTML_iff_contains_marker :
    (∀ text : String,
        isHTML text = true ↔
          ("<html".data <:+: text.data ∨ "<p".data <:+: text.data ∨
            "<div".data <:+: text.data ∨ "<span".data <:+: text.data)) ∧
      isHTML "<DIV>Hello</DIV>" = false := by
  refine ⟨fun text => ?_, by decide⟩
  simp [isHTML, containsSubstr, strContains_iff, or_assoc]

/- ### Claim C9 -/

/-- Claim C9: sentence segmentation is independent of the request's source
and target languages — the segmentation stage of the handler yields the same
sentence list for two requests sharing the text, whatever the collaborators
do, and `splitSentences` always invokes the segmenter with the hardcoded
`"en"` language. -/
theorem segmentation_language_independent :
    (∀ (env : Env) (text srcA tgtA srcB tgtB : String),
        pipelineSentences env ⟨srcA, tgtA, text⟩ =
          pipelineSentences env ⟨srcB, tgtB, text⟩) ∧
      ∀ (env : Env) (input : String), splitSentences env input = env.seg "en" input :=
  ⟨fun _ _ _ _ _ _ => rfl, fun _ _ => rfl⟩

/- ### Claim C3 -/

/-- Claim C3: the specification's scenario on
`"<p>Hello world. How are you?</p>"`: classified as markup; tokenized to a
start-tag `p`, the single text token, and an end-tag `p`, with flat sentence
list `["Hello world.", "How are you?"]` and counts `[2]`; reconstruction with
the two translated sentences concatenates them with no added separator inside
the `p` element. -/
theorem scenario_p_hello_world :
    isHTML "<p>Hello world. How are you?</p>" = true ∧
      (getTextFromHTML scenarioEnv "<p>Hello world. How are you?</p>").1 =
        .ok ([⟨.startTagTok, "p", []⟩,
              ⟨.textTok, "Hello world. How are you?", []⟩,
              ⟨.endTagTok, "p", []⟩],
             ["Hello world.", "How are you?"], [2]) ∧
      reconstructHTML
          [⟨.startTagTok, "p", []⟩,
           ⟨.textTok, "Hello world. How are you?", []⟩,
           ⟨.endTagTok, "p", []⟩]
          ["Hola mundo.", "¿Cómo estás?"] [2] =
        some "<p>Hola mundo.¿Cómo estás?</p>" := by
  refine ⟨by decide, by decide, by decide⟩

/- ### Claim C1 -/

/-- Mapping over an option preserves definedness. -/
theorem isSome_option_map {α β : Type} (f : α → β) (o : Option α) :
    (o.map f).isSome = o.isSome := by
  cases o <;> rfl

/-- `countTextTokens` over a cons. -/
theorem countTextTokens_cons (t : Token) (rest : List Token) :
    countTextTokens (t :: rest) =
      (if isTextToken t then 1 else 0) + countTextTokens rest := by
  simp only [countTextTokens, List.filter_cons]
  cases h : isTextToken t <;> simp [h, Nat.add_comm]

/-- The token walk of `reconstructHTML` succeeds whenever the counts cursor
stays inside the counts list, i.e. when the counts list has an entry for
every text token; the translated-sentence cursor needs no such bound. -/
theorem reconstructGo_isSome (ts : List String) (counts : List Nat) :
    ∀ (tokens : List Token) (ti si : Nat),
      si + countTextTokens tokens ≤ counts.length →
      (reconstructGo ts counts tokens ti si).isSome = true := by
  intro tokens
  induction tokens with
  | nil => intro ti si _; simp [reconstructGo]
  | cons t rest ih =>
      intro ti si hle
      rw [countTextTokens_cons] at hle
      obtain ⟨ty, data, attr⟩ := t
      cases ty
      case textTok =>
        simp only [isTextToken, if_pos] at hle
        have hsi : si < counts.length := by omega
        simp only [reconstructGo, dif_pos hsi]
        rcases hemit : emitSentences ts (counts.get ⟨si, hsi⟩) ti with ⟨chunk, tiNew⟩
        simp only [isSome_option_map]
        exact ih tiNew (si + 1) (by omega)
      all_goals
        simp only [isTextToken, if_neg] at hle
        simp only [reconstructGo, isSome_option_map]
        exact ih ti si (by omega)

/-- Claim C1 (amended): the bounds tolerance of `reconstructHTML` covers only
the translated-sentence cursor — reconstruction succeeds for every
translated-sentence list whenever the counts list has at least one entry per
text token (truncating silently when translated sentences run short), but the
counts-list read itself is unguarded, so a counts list shorter than the
number of text tokens makes the function fail. -/
theorem reconstructHTML_total_of_counts_cover
    (tokens : List Token) (translatedSentences : List String)
    (sentenceCounts : List Nat)
    (hcover : countTextTokens tokens ≤ sentenceCounts.length) :
    (reconstructHTML tokens translatedSentences sentenceCounts).isSome = true :=
  reconstructGo_isSome translatedSentences sentenceCounts tokens 0 0
    (by simpa using hcover)

/-- Witness for C1: a token stream with one text token, counts `[2]` but only
one translated sentence available — reconstruction still succeeds
(truncating), exercising the theorem at a concrete input. -/
theorem reconstructHTML_total_witness :
    (reconstructHTML
        [⟨.startTagTok, "p", []⟩, ⟨.textTok, "Hello world. How are you?", []⟩,
         ⟨.endTagTok, "p", []⟩]
        ["A"] [2]).isSome = true :=
  reconstructHTML_total_of_counts_cover
    [⟨.startTagTok, "p", []⟩, ⟨.textTok, "Hello world. How are you?", []⟩,
     ⟨.endTagTok, "p", []⟩]
    ["A"] [2] (by decide)

/-- Counterexample for C1 as stated: with a counts list shorter than the
number of text tokens, `reconstructHTML` fails (the Go code panics reading
`sentenceCounts[0]`), so not every count mismatch is tolerated. -/
theorem reconstructHTML_short_counts_fails :
    reconstructHTML [⟨.textTok, "x", []⟩] [] [] = none := by
  decide

/- ### Claim C7 -/

/-- Extensionality for the character-list embedding of strings. -/
theorem strExt {s t : String} (h : s.data = t.data) : s = t := by
  cases s; cases t; cases h; rfl

/-- The data of an appended string. -/
theorem strDataAppend (s t : String) : (s ++ t).data = s.data ++ t.data := rfl

/-- The builder loop of `reconstructPlainText` computes the
trailing-separator join. -/
theorem foldl_joinTrailing (ts : List String) :
    ∀ acc : String,
      ts.foldl (fun sb sentence => sb ++ sentence ++ " ") acc =
        acc ++ joinTrailing ts := by
  induction ts with
  | nil => intro acc; apply strExt; simp [joinTrailing, strDataAppend]
  | cons s rest ih =>
      intro acc
      simp only [List.foldl_cons, ih]
      apply strExt
      simp [joinTrailing, strDataAppend]

/-- Trimming absorbs one trailing separator. -/
theorem trimSpace_append_space (x : String) :
    trimSpace (x ++ " ") = trimSpace x := by
  simp only [trimSpace, trimRightChars, strDataAppend]
  have h1 : (x.data ++ (" " : String).data).reverse = ' ' :: x.data.reverse := by
    simp [show (" " : String).data = [' '] from rfl]
  rw [h1]
  simp [dropWhileSpace, isSpaceChar]

/-- The trailing-separator join is the separator join plus one separator. -/
theorem joinTrailing_eq_intercalate (ts : List String) (hne : ts ≠ []) :
    joinTrailing ts = intercalateSpace ts ++ " " := by
  induction ts with
  | nil => exact absurd rfl hne
  | cons s rest ih =>
      cases rest with
      | nil => apply strExt; simp [joinTrailing, intercalateSpace, strDataAppend]
      | cons s2 r2 =>
          have h2 : joinTrailing (s :: s2 :: r2) = s ++ " " ++ joinTrailing (s2 :: r2) := rfl
          have h3 : intercalateSpace (s :: s2 :: r2) =
              s ++ " " ++ intercalateSpace (s2 :: r2) := rfl
          rw [h2, ih (by simp), h3]
          apply strExt
          simp [strDataAppend]

/-- Claim C7 (amended): plain-text reassembly equals the sentences joined
with a single space separator and then trimmed of leading and trailing
whitespace — whitespace embedded between the ends is preserved, but
`strings.TrimSpace` also removes leading whitespace of the first sentence and
trailing whitespace of the last, not only the added trailing separator. -/
theorem reconstructPlainText_join_trim (translatedSentences : List String) :
    reconstructPlainText translatedSentences =
      trimSpace (intercalateSpace translatedSentences) := by
  unfold reconstructPlainText
  rw [foldl_joinTrailing]
  have hpre : ("" : String) ++ joinTrailing translatedSentences =
      joinTrailing translatedSentences := by
    apply strExt; simp [strDataAppend]
  rw [hpre]
  cases translatedSentences with
  | nil => rfl
  | cons s rest =>
      rw [joinTrailing_eq_intercalate (s :: rest) (by simp),
        trimSpace_append_space]

/-- Counterexample for C7 as stated: leading whitespace of a sentence is not
preserved — on `[" a"]` the code yields `"a"`, not the claimed `" a"`. -/
theorem reconstructPlainText_trims_leading :
    reconstructPlainText [" a"] = "a" ∧ reconstructPlainText [" a"] ≠ " a" := by
  decide

/- ### Claim C2 -/

/-- The accumulation loop of `getTextFromHTML` keeps the counts list summing
to the flat sentence list's length, with one entry per retained text token
whose trimmed text is non-empty. -/
theorem extractTexts_invariant (seg : String → String → List String) :
    ∀ stream : List Token,
      (extractTexts seg stream).2.2.sum = (extractTexts seg stream).2.1.length ∧
      (extractTexts seg stream).2.2.length =
        ((extractTexts seg stream).1.filter
          (fun t => isTextToken t && (trimSpace t.data != ""))).length := by
  intro stream
  induction stream with
  | nil => simp [extractTexts]
  | cons t rest ih =>
      obtain ⟨ty, data, attr⟩ := t
      rcases hrec : extractTexts seg rest with ⟨tokens, texts, counts⟩
      rw [hrec] at ih
      simp only at ih
      cases ty
      case textTok =>
        by_cases hempty : trimSpace data = ""
        · simp [extractTexts, hrec, hempty, isTextToken, List.filter_cons, ih]
        · simp [extractTexts, hrec, hempty, isTextToken, List.filter_cons, ih.1, ih.2]
      all_goals
        simp [extractTexts, hrec, isTextToken, List.filter_cons, ih.1, ih.2]

/-- Claim C2: whenever `getTextFromHTML` succeeds, the counts sum to the
length of the flat sentence list, and the counts list has exactly one entry
per text token whose trimmed text is non-empty. -/
theorem getTextFromHTML_counts_invariant
    (env : Env) (input : String) (tokens : List Token) (texts : List String)
    (counts : List Nat)
    (h : (getTextFromHTML env input).1 = .ok (tokens, texts, counts)) :
    counts.sum = texts.length ∧
      counts.length =
        (tokens.filter (fun t => isTextToken t && (trimSpace t.data != ""))).length := by
  unfold getTextFromHTML at h
  cases htok : env.tokenizeHTML (replaceNonUTF8Characters input) with
  | error e => rw [htok] at h; simp at h
  | ok stream =>
      rw [htok] at h
      simp only [Except.ok.injEq] at h
      have hinv := extractTexts_invariant env.seg stream
      rw [h] at hinv
      simpa using hinv

/-- Witness for C2: the invariant instantiated on the specification's
scenario input, where the counts are `[2]` and the flat list has two
sentences. -/
theorem getTextFromHTML_counts_invariant_witness :
    ([2] : List Nat).sum = (["Hello world.", "How are you?"] : List String).length ∧
      ([2] : List Nat).length =
        (scenarioTokens.filter
          (fun t => isTextToken t && (trimSpace t.data != ""))).length :=
  getTextFromHTML_counts_invariant scenarioEnv "<p>Hello world. How are you?</p>"
    scenarioTokens ["Hello world.", "How are you?"] [2] (by decide)

/- ### Claim C4 -/

/-- Hex encoding doubles the length. -/
theorem hexOfBytes_length : ∀ l : List Nat, (hexOfBytes l).length = 2 * l.length := by
  intro l
  induction l with
  | nil => rfl
  | cons b bs ih => simp [hexOfBytes, ih]; omega

/-- A SHA-256 digest is 32 bytes whatever the message. -/
theorem sha256Bytes_length (msg : List Nat) : (sha256Bytes msg).length = 32 := by
  simp [sha256Bytes, wordBytesBE]

/-- `getHashFromText` always yields 64 hex characters. -/
theorem getHashFromText_length (text : String) : (getHashFromText text).length = 64 := by
  show (String.mk (hexOfBytes (sha256Bytes (stringUTF8Bytes text)))).length = 64
  simp [String.length, hexOfBytes_length, sha256Bytes_length]

/-- With the language pair fixed, the dash-joined key determines the
sentence. -/
theorem hashKey_inj_right (a b s s2 : String)
    (h : hashKey a b s = hashKey a b s2) : s = s2 := by
  apply strExt
  have hd := congrArg String.data h
  simp only [hashKey, strDataAppend] at hd
  exact List.append_cancel_left hd

/-- Claim C4 (amended): the fingerprint is a deterministic fixed-length
(64 lowercase hex characters) digest of the dash-joined triple; with the
language pair fixed, distinct sentences give distinct digests whenever the
hash does not collide on the two dash-joined keys.  Distinct triples,
however, need not give distinct digests even for a collision-free hash,
because the dash-joined encoding of the triple is not injective (see the
collision counterexample). -/
theorem fingerprint_det_fixed_length_inj :
    (∀ a b s : String, (fingerprintTriple a b s).length = 64) ∧
      (∀ a b s s2 : String,
        (fingerprintTriple a b s = fingerprintTriple a b s2 →
          hashKey a b s = hashKey a b s2) →
        s ≠ s2 → fingerprintTriple a b s ≠ fingerprintTriple a b s2) := by
  constructor
  · intro a b s; exact getHashFromText_length _
  · intro a b s s2 hcf hne heq
    exact hne (hashKey_inj_right a b s s2 (hcf heq))

/-- Witness for C4: the fingerprint of a concrete triple has 64 characters,
and two concrete same-language-pair triples with different sentences have
different fingerprints. -/
theorem fingerprint_det_fixed_length_inj_witness :
    (fingerprintTriple "en" "es" "x").length = 64 ∧
      fingerprintTriple "en" "es" "x" ≠ fingerprintTriple "en" "es" "y" :=
  ⟨fingerprint_det_fixed_length_inj.1 "en" "es" "x",
   fingerprint_det_fixed_length_inj.2 "en" "es" "x" "y" (by decide) (by decide)⟩

/-- Counterexample for C4 as stated: the distinct triples `("a", "b-c", "s")`
and `("a-b", "c", "s")` have equal dash-joined keys, hence equal
fingerprints — no collision-freeness assumption can repair this. -/
theorem fingerprint_encoding_collision :
    (("a", "b-c", "s") : String × String × String) ≠ ("a-b", "c", "s") ∧
      fingerprintTriple "a" "b-c" "s" = fingerprintTriple "a-b" "c" "s" := by
  constructor
  · decide
  · show getHashFromText (hashKey "a" "b-c" "s") = getHashFromText (hashKey "a-b" "c" "s")
    rw [show hashKey "a" "b-c" "s" = hashKey "a-b" "c" "s" from by decide]

/- ### Claim C5 -/

/-- The result component of the orchestration loop on a cons. -/
theorem orchestrateGo_cons_fst (env : Env) (src tgt : String) (index : Nat)
    (token : String) (rest : List String) :
    (orchestrateGo env src tgt index (token :: rest)).1 =
      match (translateUnit env src tgt index token).1 with
      | .error e => .error e
      | .ok translated =>
          (orchestrateGo env src tgt (index + 1) rest).1.map
            (fun l => translated :: l) := by
  rcases hu : translateUnit env src tgt index token with ⟨res, ev⟩
  rcases ho : orchestrateGo env src tgt (index + 1) rest with ⟨rres, rev⟩
  cases res <;> simp [orchestrateGo, hu, ho]

/-- If every unit task starting at `index` succeeds, the loop succeeds and
fills each slot with its own unit's result. -/
theorem orchestrateGo_all_ok (env : Env) (src tgt : String) :
    ∀ (l : List String) (index : Nat),
      (∀ i (hi : i < l.length),
        ((translateUnit env src tgt (index + i) (l.get ⟨i, hi⟩)).1).isOk = true) →
      ∃ results, (orchestrateGo env src tgt index l).1 = .ok results ∧
        results.length = l.length ∧
        ∀ i (hi : i < l.length) (hr : i < results.length),
          Except.ok (results.get ⟨i, hr⟩) =
            (translateUnit env src tgt (index + i) (l.get ⟨i, hi⟩)).1 := by
  intro l
  induction l with
  | nil =>
      intro index _
      exact ⟨[], by simp [orchestrateGo], rfl, fun i hi => absurd hi (by simp)⟩
  | cons token rest ih =>
      intro index hok
      have h0 := hok 0 (by simp)
      rw [orchestrateGo_cons_fst]
      cases hu : (translateUnit env src tgt index token).1 with
      | error e =>
          rw [Nat.add_zero] at h0
          simp only [List.get] at h0
          rw [hu] at h0
          simp [Except.isOk, Except.toBool] at h0
      | ok translated =>
          obtain ⟨results, hres, hlen, hslot⟩ := ih (index + 1) (fun i hi => by
            have := hok (i + 1) (by simpa using Nat.succ_lt_succ hi)
            simpa [Nat.add_assoc, Nat.add_comm 1 i] using this)
          refine ⟨translated :: results, by simp [hres, Except.map], by simp [hlen], ?_⟩
          intro i hi hr
          cases i with
          | zero =>
              simp only [List.get]
              rw [Nat.add_zero, hu]
          | succ j =>
              have := hslot j (by simpa using Nat.lt_of_succ_lt_succ hi)
                (by simpa using Nat.lt_of_succ_lt_succ hr)
              simpa [Nat.add_assoc, Nat.add_comm 1 j] using this

/-- If some unit task fails, the loop yields an error. -/
theorem orchestrateGo_exists_err (env : Env) (src tgt : String) :
    ∀ (l : List String) (index : Nat),
      (∃ i, ∃ hi : i < l.length,
        ((translateUnit env src tgt (index + i) (l.get ⟨i, hi⟩)).1).isOk = false) →
      ∃ e, (orchestrateGo env src tgt index l).1 = .error e := by
  intro l
  induction l with
  | nil => intro index ⟨i, hi, _⟩; exact absurd hi (by simp)
  | cons token rest ih =>
      intro index ⟨i, hi, hfail⟩
      rw [orchestrateGo_cons_fst]
      cases hu : (translateUnit env src tgt index token).1 with
      | error e => exact ⟨e, rfl⟩
      | ok translated =>
          cases i with
          | zero =>
              rw [Nat.add_zero] at hfail
              simp only [List.get] at hfail
              rw [hu] at hfail
              simp [Except.isOk, Except.toBool] at hfail
          | succ j =>
              obtain ⟨e, he⟩ := ih (index + 1)
                ⟨j, by simpa using Nat.lt_of_succ_lt_succ hi, by
                  simpa [Nat.add_assoc, Nat.add_comm 1 j] using hfail⟩
              exact ⟨e, by simp [he, Except.map]⟩

/-- Claim C5: the orchestration is all-or-nothing and order-preserving — if
every unit's task (cache lookup, then provider translation and cache store on
a miss) succeeds, the batch succeeds with each unit's result in its own index
slot; if any unit's task fails, the batch yields a single terminal error and
no translated output. -/
theorem orchestrate_all_or_nothing_ordered (env : Env) (src tgt : String)
    (sentences : List String) :
    ((∀ i (hi : i < sentences.length),
        ((translateUnit env src tgt i (sentences.get ⟨i, hi⟩)).1).isOk = true) →
      ∃ results, (orchestrate env src tgt sentences).1 = .ok results ∧
        results.length = sentences.length ∧
        ∀ i (hi : i < sentences.length) (hr : i < results.length),
          Except.ok (results.get ⟨i, hr⟩) =
            (translateUnit env src tgt i (sentences.get ⟨i, hi⟩)).1) ∧
      ((∃ i, ∃ hi : i < sentences.length,
          ((translateUnit env src tgt i (sentences.get ⟨i, hi⟩)).1).isOk = false) →
        ∃ e, (orchestrate env src tgt sentences).1 = .error e) := by
  constructor
  · intro hok
    obtain ⟨results, hres, hlen, hslot⟩ :=
      orchestrateGo_all_ok env src tgt sentences 0 (fun i hi => by
        simpa using hok i hi)
    exact ⟨results, hres, hlen, fun i hi hr => by simpa using hslot i hi hr⟩
  · intro ⟨i, hi, hfail⟩
    exact orchestrateGo_exists_err env src tgt sentences 0
      ⟨i, hi, by simpa using hfail⟩

/-- Witness for C5: on a singleton batch, an always-hitting cache yields the
ordered successful output, and a failing cache lookup aborts the batch with
an error and no output. -/
theorem orchestrate_all_or_nothing_ordered_witness :
    (∃ results, (orchestrate cacheHitEnv "en" "es" ["Hello"]).1 = .ok results ∧
      results.length = (["Hello"] : List String).length ∧
      ∀ i (hi : i < (["Hello"] : List String).length) (hr : i < results.length),
        Except.ok (results.get ⟨i, hr⟩) =
          (translateUnit cacheHitEnv "en" "es" i
            ((["Hello"] : List String).get ⟨i, hi⟩)).1) ∧
      ∃ e, (orchestrate cacheErrEnv "en" "es" ["Hello"]).1 = .error e :=
  ⟨(orchestrate_all_or_nothing_ordered cacheHitEnv "en" "es" ["Hello"]).1
      (by decide),
   (orchestrate_all_or_nothing_ordered cacheErrEnv "en" "es" ["Hello"]).2
      ⟨0, by decide, by decide⟩⟩

/- ### Claim C6 -/

/-- Claim C6: a valid request whose target language is not in the provider's
supported set is rejected with the distinct unsupported-target-language error
before any translation work — the trace holds exactly the one list-languages
call, so no tokenization, cache lookup or store, or provider translate call
happened. -/
theorem handle_unsupported_target_fail_fast (env : Env) (request : TranslateRequest)
    (langs : List String)
    (hval : validateRequest request = none)
    (hlist : env.listLanguages = .ok (some langs))
    (hcon : langs.contains request.TargetLanguage = false) :
    handleReq env request =
      (some ⟨422, "Target language not supported"⟩, [Event.listLangs]) := by
  have hmem : request.TargetLanguage ∉ langs := by simpa using hcon
  simp [handleReq, hval, doesTargetLanguageExist, getSupportedLanguages, hlist, hmem]

/-- Witness for C6: a concrete request for the unsupported target `"xx"`
against a provider supporting `["en", "es"]`. -/
theorem handle_unsupported_target_fail_fast_witness :
    handleReq scenarioEnv ⟨"en", "xx", "Hello"⟩ =
      (some ⟨422, "Target language not supported"⟩, [Event.listLangs]) :=
  handle_unsupported_target_fail_fast scenarioEnv ⟨"en", "xx", "Hello"⟩
    ["en", "es"] (by decide) rfl (by decide)

/- ### Claim C8 -/

/-- Claim C8 (amended): a request whose text is empty never reaches the
pipeline — `validateRequest` rejects it with the `"text is required"` error
and a 400 status before classification, and the empty trace shows no
provider or cache call is made. -/
theorem handle_empty_text_rejected (env : Env) (src tgt : String)
    (hsrc : src ≠ "") (htgt : tgt ≠ "") :
    handleReq env ⟨src, tgt, ""⟩ = (some ⟨400, "text is required"⟩, []) := by
  simp [handleReq, validateRequest, hsrc, htgt]

/-- Witness for C8: the concrete empty-text request. -/
theorem handle_empty_text_rejected_witness :
    handleReq scenarioEnv ⟨"en", "es", ""⟩ =
      (some ⟨400, "text is required"⟩, []) :=
  handle_empty_text_rejected scenarioEnv "en" "es" (by decide) (by decide)

/-- Counterexample for C8 as stated: on the empty-text request the handler
does not return the empty-translation success the scenario describes — it
returns the 400 validation error. -/
theorem handle_empty_text_not_translated :
    (handleReq cacheHitEnv ⟨"en", "es", ""⟩).1 ≠
        some ⟨200, marshalResponseModel ""⟩ ∧
      handleReq cacheHitEnv ⟨"en", "es", ""⟩ =
        (some ⟨400, "text is required"⟩, []) := by
  exact ⟨by decide, by decide⟩

end Gotranslate
